import Mathlib

/-!
Shallow embedding of the core of a Polymarket copy-trading bot, together
with proofs checking its natural-language specification against the code.

Embedded components:
* the error taxonomy (`src/errors.ts`): `BaseError` values with
  code / retryability / severity, and the class constructors;
* `ErrorHandler.classifyError` / `ErrorHandler.getRecoveryStrategy`
  (`src/utils/errorHandler.ts`);
* the retrying HTTP fetcher `fetchData` (`src/utils/fetchData.ts`),
  modelled over an explicit sequence of per-attempt outcomes;
* the `CircuitBreaker` state machine (`src/utils/circuitBreaker.ts`)
  as a step function on explicit breaker states;
* the balance probe `getMyBalance` (`src/utils/getMyBalance.ts`);
* the copy-sizing policy, trade aggregator and execution engine, whose
  implementations are not part of the available sources and are therefore
  modelled from the specification (marked `Modelled from the spec:`).

Numbers that are IEEE doubles in the source are modelled as rationals;
timestamps (`Date.now()` milliseconds) as naturals.
-/

namespace CopyBot

/-! ## Error taxonomy (src/errors.ts) -/

/-- Severity levels carried by every typed error. -/
inductive Severity where
  | low
  | medium
  | high
  | critical
deriving DecidableEq, Repr

/-- The concrete error class of a typed error value.  TypeScript
dispatches on the class via `instanceof`; the embedding records the class
as a field. -/
inductive ErrorKind where
  | base
  | network
  | validation
  | execution
  | database
  | api
  | insufficientFunds
  | circuitBreaker
  | configuration
deriving DecidableEq, Repr

/-- A typed error value: `BaseError` from src/errors.ts with its
`code`, `isRetryable` and `severity` fields, plus the concrete class. -/
structure BaseError where
  kind : ErrorKind
  message : String
  code : String
  isRetryable : Bool
  severity : Severity
deriving DecidableEq, Repr

/-- `new NetworkError(message, isRetryable = true)`. -/
def NetworkError (message : String) (isRetryable : Bool := true) : BaseError :=
  ⟨.network, message, "NETWORK_ERROR", isRetryable, .medium⟩

/-- `new ValidationError(message)`. -/
def ValidationError (message : String) : BaseError :=
  ⟨.validation, message, "VALIDATION_ERROR", false, .high⟩

/-- `new ExecutionError(message, isRetryable = false)`. -/
def ExecutionError (message : String) (isRetryable : Bool := false) : BaseError :=
  ⟨.execution, message, "EXECUTION_ERROR", isRetryable, .high⟩

/-- `new DatabaseError(message, isRetryable = true)`. -/
def DatabaseError (message : String) (isRetryable : Bool := true) : BaseError :=
  ⟨.database, message, "DATABASE_ERROR", isRetryable, .high⟩

/-- `new ApiError(message, isRetryable = true)`. -/
def ApiError (message : String) (isRetryable : Bool := true) : BaseError :=
  ⟨.api, message, "API_ERROR", isRetryable, .medium⟩

/-- `new InsufficientFundsError(message)`. -/
def InsufficientFundsError (message : String) : BaseError :=
  ⟨.insufficientFunds, message, "INSUFFICIENT_FUNDS_ERROR", false, .critical⟩

/-- `new CircuitBreakerError(message)`. -/
def CircuitBreakerError (message : String) : BaseError :=
  ⟨.circuitBreaker, message, "CIRCUIT_BREAKER_ERROR", true, .high⟩

/-- `new ConfigurationError(message)`. -/
def ConfigurationError (message : String) : BaseError :=
  ⟨.configuration, message, "CONFIGURATION_ERROR", false, .critical⟩

/-! ## ErrorHandler (src/utils/errorHandler.ts) -/

/-- Character-list helper: `t` is an initial segment of `s`. -/
def startsWithChars : List Char → List Char → Bool
  | _, [] => true
  | [], _ :: _ => false
  | c :: s, d :: t => c == d && startsWithChars s t

/-- Character-list helper: `t` occurs contiguously inside `s`. -/
def hasSubChars : List Char → List Char → Bool
  | [], t => t.isEmpty
  | c :: s, t => startsWithChars (c :: s) t || hasSubChars s t

/-- JavaScript `s.includes(t)`: `t` occurs as a contiguous substring of
`s`. -/
def strIncludes (s t : String) : Bool :=
  hasSubChars s.toList t.toList

namespace ErrorHandler

/-- A value thrown in JavaScript, as `classifyError` discriminates it:
either already a typed `BaseError`, a plain `Error` carrying a message,
or some non-`Error` value. -/
inductive Thrown where
  | typed (e : BaseError)
  | jsError (message : String)
  | nonError
deriving DecidableEq, Repr

/-- `ErrorHandler.classifyError`: promote an arbitrary thrown value to a
typed error by substring heuristics on the lowercased message. -/
def classifyError : Thrown → BaseError
  | .typed e => e
  | .jsError msg =>
    let m := msg.toLower
    if strIncludes m "timeout" || strIncludes m "network" ||
        strIncludes m "connection" || strIncludes m "enotfound" ||
        strIncludes m "econnrefused" then
      NetworkError msg true
    else if strIncludes m "mongo" || strIncludes m "database" ||
        (strIncludes m "connection" && strIncludes m "failed") then
      DatabaseError msg true
    else if strIncludes m "api" || strIncludes m "http" ||
        (strIncludes m "request" && strIncludes m "failed") then
      ApiError msg true
    else if strIncludes m "insufficient" && strIncludes m "balance" then
      InsufficientFundsError msg
    else if strIncludes m "validation" || strIncludes m "invalid" then
      ValidationError msg
    else
      ExecutionError msg false
  | .nonError => ExecutionError "Unknown error occurred" false

/-- `ErrorHandler.shouldRecover`. -/
def shouldRecover (e : BaseError) : Bool :=
  e.isRetryable && !(e.severity == Severity.critical)

/-- The four recovery strategies returned by `getRecoveryStrategy`. -/
inductive RecoveryStrategy where
  | retry
  | circuitBreak
  | skip
  | shutdown
deriving DecidableEq, Repr

/-- `ErrorHandler.getRecoveryStrategy`. -/
def getRecoveryStrategy (e : BaseError) : RecoveryStrategy :=
  if !shouldRecover e then
    if e.severity == Severity.critical then .shutdown else .skip
  else if e.kind == ErrorKind.network || e.kind == ErrorKind.api then
    .retry
  else if e.kind == ErrorKind.database then
    .circuitBreak
  else
    .skip

end ErrorHandler

/-! ## Retrying HTTP fetcher (src/utils/fetchData.ts)

`fetchData` is modelled over an explicit sequence of per-attempt
outcomes: `outcomes k` is what the `axios.get` call of attempt `k`
(1-indexed) would produce.  The model returns the fetcher's result
(`none` models the `undefined` that falls out of the loop when the
retry limit is 0) together with the number of HTTP calls made.  The
backoff sleeps do not affect the result and are not modelled. -/

namespace FetchData

/-- Failure of one HTTP attempt as the `catch` block discriminates it:
an axios error with optional transport `code` and optional response
`status` (no status models "no response"), or a non-axios thrown
value. -/
inductive AttemptFailure where
  | axiosErr (code : Option String) (status : Option Nat) (message : String)
  | nonAxios (v : ErrorHandler.Thrown)
deriving DecidableEq, Repr

/-- The transport codes that `isNetworkError` treats as network-class. -/
def networkCodes : List String :=
  ["ETIMEDOUT", "ENETUNREACH", "ECONNRESET", "ECONNREFUSED"]

/-- `isNetworkError` from src/utils/fetchData.ts. -/
def isNetworkError : AttemptFailure → Bool
  | .axiosErr code status _ =>
    (match code with
      | some c => networkCodes.contains c
      | none => false) || status.isNone
  | .nonAxios _ => false

/-- `isRetryableError` from src/utils/fetchData.ts. -/
def isRetryableError : AttemptFailure → Bool
  | f@(.axiosErr _ status _) =>
    (match status with
      | none => true
      | some s => 500 ≤ s) || isNetworkError f
  | f@(.nonAxios _) => isNetworkError f

/-- The error `fetchData` throws once it stops retrying, classifying the
final failure. -/
def terminalError (retries : Nat) : AttemptFailure → BaseError
  | f@(.axiosErr code status message) =>
    if isNetworkError f then
      NetworkError
        ("Network request failed after " ++ toString retries ++
          " attempts: " ++ code.getD "undefined")
        false
    else
      ApiError
        ("API request failed: " ++
          (match status with
            | some s => "HTTP " ++ toString s
            | none => "Unknown API error") ++ " - " ++ message)
        (match status with
          | some s => 500 ≤ s
          | none => false)
  | .nonAxios v => ErrorHandler.classifyError v

/-- The retry loop of `fetchData`; `fuel` bounds the remaining loop
iterations (`retries - attempt + 1` at entry).  Returns the result and
the number of HTTP calls made. -/
def fetchDataGo (outcomes : Nat → Except AttemptFailure α) (retries : Nat) :
    Nat → Nat → Option (Except BaseError α) × Nat
  | _, 0 => (none, 0)
  | attempt, fuel + 1 =>
    match outcomes attempt with
    | .ok a => (some (.ok a), 1)
    | .error f =>
      let isLastAttempt := attempt == retries
      if isRetryableError f && !isLastAttempt then
        let r := fetchDataGo outcomes retries (attempt + 1) fuel
        (r.1, r.2 + 1)
      else
        (some (.error (terminalError retries f)), 1)

/-- `fetchData(url)` with `ENV.NETWORK_RETRY_LIMIT = retries`, run
against the attempt outcomes `outcomes`. -/
def fetchData (retries : Nat) (outcomes : Nat → Except AttemptFailure α) :
    Option (Except BaseError α) × Nat :=
  fetchDataGo outcomes retries 1 retries

end FetchData

/-! ## Circuit breaker (src/utils/circuitBreaker.ts)

One `execute` call is modelled as an atomic step on an explicit breaker
state: the wall clock `now` stands for the `Date.now()` reads inside the
call, and `OpResult` says whether the wrapped operation would succeed
when invoked. -/

namespace Breaker

/-- Breaker state tag; `opened` embeds the source's `'open'`. -/
inductive BState where
  | closed
  | opened
  | halfOpen
deriving DecidableEq, Repr

/-- Constructor parameters of `CircuitBreaker` with their defaults. -/
structure Config where
  failureThreshold : Nat := 5
  recoveryTimeout : Nat := 60000
  monitoringPeriod : Nat := 300000
deriving DecidableEq, Repr

/-- Mutable fields of a `CircuitBreaker` instance. -/
structure BreakerState where
  failures : Nat := 0
  lastFailureTime : Nat := 0
  state : BState := .closed
deriving DecidableEq, Repr

/-- Outcome of the wrapped operation, were it invoked. -/
inductive OpResult where
  | succeeds
  | fails
deriving DecidableEq, Repr

/-- What one `execute` call did: fail fast with a thrown error while
never invoking the operation, or invoke the operation and propagate its
success / failure. -/
inductive ExecOutcome where
  | fastFail (e : BaseError)
  | invokedOk
  | invokedFailed
deriving DecidableEq, Repr

/-- `CircuitBreaker.reset`. -/
def resetState : BreakerState := ⟨0, 0, .closed⟩

/-- `CircuitBreaker.onSuccess`. -/
def onSuccess (cfg : Config) (now : Nat) (s : BreakerState) : BreakerState :=
  let s1 := if s.state == BState.halfOpen then resetState else s
  if cfg.monitoringPeriod < now - s1.lastFailureTime then
    { s1 with failures := 0 }
  else s1

/-- `CircuitBreaker.onFailure`. -/
def onFailure (cfg : Config) (now : Nat) (s : BreakerState) : BreakerState :=
  let f := s.failures + 1
  let s1 : BreakerState := { s with failures := f, lastFailureTime := now }
  if cfg.failureThreshold ≤ f then
    { s1 with state := .opened }
  else if s.state == BState.halfOpen then
    { s1 with state := .opened }
  else s1

/-- `CircuitBreaker.execute` as one atomic step: returns the successor
state and what happened. -/
def executeStep (cfg : Config) (name : String) (s : BreakerState) (now : Nat)
    (r : OpResult) : BreakerState × ExecOutcome :=
  if s.state == BState.opened &&
      !(cfg.recoveryTimeout < now - s.lastFailureTime) then
    (s, .fastFail (CircuitBreakerError
      ("Circuit breaker " ++ name ++ " is OPEN - service unavailable")))
  else
    let s0 := if s.state == BState.opened then
        { s with state := BState.halfOpen }
      else s
    match r with
    | .succeeds => (onSuccess cfg now s0, .invokedOk)
    | .fails => (onFailure cfg now s0, .invokedFailed)

/-- States a breaker named `name` can be in: the fresh state, anything
an `execute` call can produce, and the `forceReset` state. -/
inductive Reachable (cfg : Config) (name : String) : BreakerState → Prop where
  | init : Reachable cfg name ⟨0, 0, .closed⟩
  | step {s : BreakerState} (now : Nat) (r : OpResult)
      (h : Reachable cfg name s) :
      Reachable cfg name (executeStep cfg name s now r).1
  | forced {s : BreakerState} (h : Reachable cfg name s) :
      Reachable cfg name resetState

end Breaker

/-- Runs an already-determined operation outcome through
`CircuitBreaker.execute`, propagating the operation's value or error
unchanged and turning an open-state fast fail into the thrown
`CircuitBreakerError`. -/
def Breaker.executeExcept (cfg : Breaker.Config) (name : String)
    (s : Breaker.BreakerState) (now : Nat) (op : Except BaseError α) :
    Breaker.BreakerState × Except BaseError α :=
  let r := match op with
    | .ok _ => Breaker.OpResult.succeeds
    | .error _ => Breaker.OpResult.fails
  let res := Breaker.executeStep cfg name s now r
  match res.2 with
  | .fastFail e => (res.1, .error e)
  | _ => (res.1, op)

/-! ## Balance probe (src/utils/getMyBalance.ts) -/

namespace Balance

/-- Whether a thrown value satisfies `error instanceof Error`; typed
`BaseError`s extend `Error`. -/
def thrownIsError : ErrorHandler.Thrown → Bool
  | .typed _ => true
  | .jsError _ => true
  | .nonError => false

/-- The `message` of a thrown `Error`. -/
def thrownMessage : ErrorHandler.Thrown → String
  | .typed e => e.message
  | .jsError m => m
  | .nonError => ""

/-- `address.slice(0, 6) + "..." + address.slice(-4)`. -/
def redactAddress (address : String) : String :=
  String.mk (address.toList.take 6) ++ "..." ++
    String.mk (address.toList.drop (address.length - 4))

/-- Outcome of the ERC-20 `balanceOf` read: the raw `uint256` balance in
six-decimal base units, or a thrown value. -/
inductive RpcOutcome where
  | ok (baseUnits : Nat)
  | err (v : ErrorHandler.Thrown)
deriving DecidableEq, Repr

/-- The operation `getMyBalance` passes to the breaker: divide the raw
balance by `10^6` (`formatUnits(-, 6)` then `parseFloat`), and re-wrap a
caught `Error` as an `ApiError` carrying the redacted address. -/
def balanceOp (address : String) (rpc : RpcOutcome) : Except BaseError ℚ :=
  match rpc with
  | .ok baseUnits => .ok ((baseUnits : ℚ) / 1000000)
  | .err v =>
    if thrownIsError v then
      .error (ApiError
        ("Failed to get balance for " ++ redactAddress address ++ ": " ++
          thrownMessage v)
        true)
    else
      .error (ErrorHandler.classifyError v)

/-- Name passed to `CircuitBreakerRegistry.getBreaker`. -/
def balanceBreakerName : String := "polygon-balance"

/-- Breaker parameters `getMyBalance` requests: threshold 3, recovery
timeout 30000 ms, default monitoring period. -/
def balanceBreakerConfig : Breaker.Config :=
  { failureThreshold := 3, recoveryTimeout := 30000 }

/-- `getMyBalance(address)`, run against an explicit breaker state,
clock and RPC outcome. -/
def getMyBalance (address : String) (s : Breaker.BreakerState) (now : Nat)
    (rpc : RpcOutcome) : Breaker.BreakerState × Except BaseError ℚ :=
  Breaker.executeExcept balanceBreakerConfig balanceBreakerName s now
    (balanceOp address rpc)

end Balance

/-! ## Copy-sizing policy (src/config/copyStrategy.ts)

The implementation file is not among the available sources (only its
test suite is), so the policy is modelled from the specification and
checked against the expectations of the test suite. -/

/-- Modelled from the spec: the `CopyStrategy` enum of
src/config/copyStrategy.ts. -/
inductive CopyStrategy where
  | PERCENTAGE
  | FIXED
  | ADAPTIVE
deriving DecidableEq, Repr

/-- Modelled from the spec: one tiered-multiplier entry
`{min, max-or-null, multiplier}`; `max = none` is the infinite upper
bound. -/
structure TieredMultiplier where
  min : ℚ
  max : Option ℚ
  multiplier : ℚ
deriving DecidableEq, Repr

/-- Modelled from the spec: the `CopyStrategyConfig` record of
src/config/copyStrategy.ts. -/
structure CopyStrategyConfig where
  strategy : CopyStrategy
  copySize : ℚ
  maxOrderSizeUSD : ℚ
  minOrderSizeUSD : ℚ
  maxPositionSizeUSD : Option ℚ := none
  adaptiveMinPercent : Option ℚ := none
  adaptiveMaxPercent : Option ℚ := none
  adaptiveThreshold : Option ℚ := none
  tradeMultiplier : Option ℚ := none
  tieredMultipliers : Option (List TieredMultiplier) := none
deriving DecidableEq, Repr

/-- A tier matches a trader order size `x` when `x` lies in
`[min, max)`, an infinite-bound tier matching everything `≥ min`. -/
def tierMatches (t : TieredMultiplier) (x : ℚ) : Bool :=
  t.min ≤ x &&
    (match t.max with
      | none => true
      | some m => x < m)

/-- Modelled from the spec: `getTradeMultiplier(config,
traderOrderSize)`.  If `tieredMultipliers` is set and non-empty, the
multiplier of the first tier whose `[min, max)` contains the trader
order size (1.0 when no tier matches); else `tradeMultiplier` when
present; else 1.0. -/
def getTradeMultiplier (config : CopyStrategyConfig) (traderOrderSize : ℚ) : ℚ :=
  match config.tieredMultipliers with
  | some (t :: ts) =>
    (match (t :: ts).find? (fun tier => tierMatches tier traderOrderSize) with
      | some tier => tier.multiplier
      | none => 1)
  | _ =>
    match config.tradeMultiplier with
    | some m => m
    | none => 1

/-- `clamp(x, lo, hi)`. -/
def clampQ (x lo hi : ℚ) : ℚ := max lo (min x hi)

/-- Modelled from the spec: the per-strategy base amount of step 1 of
`calculateOrderSize` (before the multiplier).  For ADAPTIVE above the
threshold the spec's "lower bound further reduced proportionally" is
modelled as the percentage decaying like `threshold / traderOrderSize`
applied to the threshold, which matches the test suite's expectations
(strictly below the lower-bound amount for large orders).  A missing
adaptive parameter falls back to the PERCENTAGE formula. -/
def strategyBaseAmount (config : CopyStrategyConfig) (traderOrderSize : ℚ) : ℚ :=
  match config.strategy with
  | .FIXED => config.copySize
  | .PERCENTAGE => traderOrderSize * config.copySize / 100
  | .ADAPTIVE =>
    match config.adaptiveMinPercent, config.adaptiveMaxPercent,
        config.adaptiveThreshold with
    | some minP, some maxP, some t =>
      if traderOrderSize ≤ t then
        traderOrderSize *
          clampQ (maxP - traderOrderSize / t * (maxP - minP)) minP maxP / 100
      else
        t * (minP * (t / traderOrderSize)) / 100
    | _, _, _ => traderOrderSize * config.copySize / 100

/-- Modelled from the spec: the `OrderSizeCalculation` record returned
by `calculateOrderSize` (the sized intent). -/
structure OrderSizeCalculation where
  strategy : CopyStrategy
  traderOrderSize : ℚ
  baseAmount : ℚ
  finalAmount : ℚ
  cappedByMax : Bool
  reducedByBalance : Bool
  belowMinimum : Bool
  reasoning : List String
deriving DecidableEq, Repr

/-- Modelled from the spec: `calculateOrderSize(config, traderOrderSize,
availableBalance, currentPositionSize)`.  Steps: strategy base amount,
multiplier, cap by `maxOrderSizeUSD`, position cap, balance reduction
with the 0.99 haircut, minimum suppression. -/
def calculateOrderSize (config : CopyStrategyConfig) (traderOrderSize : ℚ)
    (availableBalance : ℚ) (currentPositionSize : ℚ) : OrderSizeCalculation :=
  let m := getTradeMultiplier config traderOrderSize
  let base := strategyBaseAmount config traderOrderSize * m
  let f3 := if config.maxOrderSizeUSD < base then config.maxOrderSizeUSD else base
  let f4 :=
    match config.maxPositionSizeUSD with
    | some cap =>
      if cap < currentPositionSize + f3 then max 0 (cap - currentPositionSize)
      else f3
    | none => f3
  let f5 := if availableBalance < f4 then availableBalance * (99 / 100) else f4
  let f6 := if f5 < config.minOrderSizeUSD then (0 : ℚ) else f5
  { strategy := config.strategy
    traderOrderSize := traderOrderSize
    baseAmount := base
    finalAmount := f6
    cappedByMax := decide (config.maxOrderSizeUSD < base)
    reducedByBalance := decide (availableBalance < f4)
    belowMinimum := decide (f5 < config.minOrderSizeUSD)
    reasoning :=
      (if config.maxOrderSizeUSD < base then ["Capped at max"] else []) ++
      (match config.maxPositionSizeUSD with
        | some cap =>
          if cap < currentPositionSize + f3 then
            ["Reduced to fit position limit"]
          else []
        | none => []) ++
      (if availableBalance < f4 then ["Reduced to fit balance"] else []) ++
      (if f5 < config.minOrderSizeUSD then ["Below minimum"] else []) }

/-! ## Persistence updates

The engine and aggregator write to the external activity store only
through `updateOne(filter, update)`.  The two update shapes are
reified as data. -/

/-- A persistence write issued against the activity identified by `id`:
`setBotExcutedTime id v` is `updateOne(\x7b _id: id \x7d, \x7b $set:
\x7b botExcutedTime: v \x7d \x7d)`, and `setBotSkipped id` is
`updateOne(\x7b _id: id \x7d, \x7b bot: true \x7d)`. -/
inductive DbUpdate where
  | setBotExcutedTime (id : String) (value : Int)
  | setBotSkipped (id : String)
deriving DecidableEq, Repr

/-! ## Trade aggregator (src/services/TradeAggregator.ts)

The implementation file is not among the available sources (only its
test suite is), so the aggregator is modelled from the specification
and checked against the expectations of the test suite.  The buffer is
a list of buckets in creation order; times are milliseconds. -/

namespace Aggregator

/-- Trade side. -/
inductive Side where
  | BUY
  | SELL
deriving DecidableEq, Repr

/-- Modelled from the spec: the fields of `TradeWithUser` that the
aggregator reads (identifier, aggregation-key fields, size and
price). -/
structure TradeWithUser where
  id : String
  userAddress : String
  conditionId : String
  asset : String
  side : Side
  usdcSize : ℚ
  price : ℚ
deriving DecidableEq, Repr

/-- The aggregation key: (leader, condition, asset, side). -/
structure AggKey where
  userAddress : String
  conditionId : String
  asset : String
  side : Side
deriving DecidableEq, Repr

/-- The key of a trade. -/
def tradeKey (t : TradeWithUser) : AggKey :=
  ⟨t.userAddress, t.conditionId, t.asset, t.side⟩

/-- Modelled from the spec: an aggregation bucket. -/
structure PendingAggregation where
  key : AggKey
  trades : List TradeWithUser
  totalUsdcSize : ℚ
  averagePrice : ℚ
  windowStart : Nat
deriving DecidableEq, Repr

/-- `Σ usdcSize` over a contribution list. -/
def sizeSum (ts : List TradeWithUser) : ℚ :=
  (ts.map (fun t => t.usdcSize)).sum

/-- `Σ (usdcSize · price)` over a contribution list. -/
def weightedSum (ts : List TradeWithUser) : ℚ :=
  (ts.map (fun t => t.usdcSize * t.price)).sum

/-- Appending one trade to an existing bucket: the size is added to the
running total, the weighted average price is recomputed over the new
contribution list, `key` and `windowStart` are unchanged. -/
def appendTrade (trade : TradeWithUser) (b : PendingAggregation) :
    PendingAggregation :=
  let trades := b.trades ++ [trade]
  let total := b.totalUsdcSize + trade.usdcSize
  { b with
    trades := trades
    totalUsdcSize := total
    averagePrice := weightedSum trades / total }

/-- The bucket created on first arrival for a key: one contribution,
total equal to its size, average equal to its price,
`windowStart = now`. -/
def newBucket (now : Nat) (trade : TradeWithUser) : PendingAggregation :=
  { key := tradeKey trade
    trades := [trade]
    totalUsdcSize := trade.usdcSize
    averagePrice := trade.price
    windowStart := now }

/-- Modelled from the spec: `addToAggregationBuffer(trade)` at wall
clock `now`.  Appends to the bucket with the trade's key — adding the
size to the running total and recomputing the weighted average price —
or creates a fresh bucket with `windowStart = now`. -/
def addToAggregationBuffer (now : Nat) (trade : TradeWithUser)
    (buf : List PendingAggregation) : List PendingAggregation :=
  if buf.any (fun b => b.key == tradeKey trade) then
    buf.map (fun b =>
      if b.key == tradeKey trade then appendTrade trade b else b)
  else
    buf ++ [newBucket now trade]

/-- The buffer obtained by feeding a sequence of `(time, trade)` events
into `addToAggregationBuffer`, starting from the empty buffer. -/
def processAdds (events : List (Nat × TradeWithUser)) : List PendingAggregation :=
  events.foldl (fun buf e => addToAggregationBuffer e.1 e.2 buf) []

/-- Modelled from the spec: an emitted `AggregatedTrade`. -/
structure AggregatedTrade where
  userAddress : String
  conditionId : String
  asset : String
  side : Side
  totalUsdcSize : ℚ
  averagePrice : ℚ
  trades : List TradeWithUser
deriving DecidableEq, Repr

/-- The aggregated trade emitted for a ready bucket. -/
def toAggregated (b : PendingAggregation) : AggregatedTrade :=
  ⟨b.key.userAddress, b.key.conditionId, b.key.asset, b.key.side,
    b.totalUsdcSize, b.averagePrice, b.trades⟩

/-- A bucket is ready when the window has elapsed since its
`windowStart`. -/
def isReady (window now : Nat) (b : PendingAggregation) : Bool :=
  window ≤ now - b.windowStart

/-- Modelled from the spec: `getReadyAggregatedTrades()` at wall clock
`now`, with aggregation window `window` (ms) and minimum order size
`minOrder`.  Returns the emitted trades, the buckets left in the
buffer, and the persistence updates issued for ready-but-undersized
buckets. -/
def getReadyAggregatedTrades (window : Nat) (minOrder : ℚ) (now : Nat) :
    List PendingAggregation →
      List AggregatedTrade × List PendingAggregation × List DbUpdate
  | [] => ([], [], [])
  | b :: rest =>
    let r := getReadyAggregatedTrades window minOrder now rest
    if isReady window now b then
      if b.totalUsdcSize < minOrder then
        (r.1, r.2.1, (b.trades.map (fun t => DbUpdate.setBotSkipped t.id)) ++ r.2.2)
      else
        (toAggregated b :: r.1, r.2.1, r.2.2)
    else
      (r.1, b :: r.2.1, r.2.2)

/-- The time of the first add event whose trade has key `k`, if any. -/
def firstTimeFor (events : List (Nat × TradeWithUser)) (k : AggKey) : Option Nat :=
  (events.find? (fun e => tradeKey e.2 == k)).map (fun e => e.1)

/-- Well-formedness of one bucket: running total and average agree with
the contribution list, the list is non-empty, and every contribution
has the bucket's key. -/
def BucketWF (b : PendingAggregation) : Prop :=
  b.totalUsdcSize = sizeSum b.trades ∧
  b.averagePrice = weightedSum b.trades / sizeSum b.trades ∧
  b.trades ≠ [] ∧
  ∀ t ∈ b.trades, tradeKey t = b.key

/-- Well-formedness of the whole buffer relative to the add events that
produced it: every bucket is well-formed with `windowStart` the time of
the first add for its key, and a key has a bucket exactly when some
event carries it. -/
def BufferWF (events : List (Nat × TradeWithUser))
    (buf : List PendingAggregation) : Prop :=
  (∀ b ∈ buf, BucketWF b ∧ firstTimeFor events b.key = some b.windowStart) ∧
  (∀ k : AggKey, (∃ b ∈ buf, b.key = k) ↔ (∃ e ∈ events, tradeKey e.2 = k))

end Aggregator

/-! ## Execution engine (src/services/ExecutionEngine.ts)

The implementation file is not among the available sources (only its
test suite is), so `executeTrade` is modelled from the specification:
CAS the marker UNSEEN → IN_FLIGHT, validate, mark SKIPPED (sentinel −1)
on an invalid result, otherwise post and mark COMPLETED; a posting
failure propagates and leaves the marker IN_FLIGHT unless it is
non-retryable. -/

namespace Engine

/-- The decision `validateTrade` returns, as far as the engine branches
on it. -/
structure ValidationResult where
  isValid : Bool
  reason : Option String := none
deriving DecidableEq, Repr

/-- Outcome of the order-post call, were it attempted. -/
inductive PostResult where
  | posted
  | postFailed (e : BaseError)
deriving DecidableEq, Repr

/-- What one `executeTrade` call did: the persistence writes in order,
whether an order post was attempted, and the error (if any) that
escapes to the caller. -/
structure ExecResult where
  updates : List DbUpdate
  posted : Bool
  errorRaised : Option BaseError
deriving DecidableEq, Repr

/-- Modelled from the spec: `executeTrade(client, activity,
followerAddress)` for the activity with identifier `activityId`, given
whether the UNSEEN → IN_FLIGHT compare-and-set succeeded, the
validator's decision, and the order-post outcome. -/
def executeTrade (activityId : String) (now : Nat) (casSuccess : Bool)
    (validation : ValidationResult) (post : PostResult) : ExecResult :=
  if !casSuccess then
    { updates := [], posted := false, errorRaised := none }
  else
    let markInFlight := DbUpdate.setBotExcutedTime activityId (now : Int)
    if !validation.isValid then
      { updates := [markInFlight, DbUpdate.setBotExcutedTime activityId (-1)]
        posted := false
        errorRaised := none }
    else
      match post with
      | .posted =>
        { updates := [markInFlight, DbUpdate.setBotExcutedTime activityId (now : Int)]
          posted := true
          errorRaised := none }
      | .postFailed e =>
        if e.isRetryable then
          { updates := [markInFlight], posted := true, errorRaised := some e }
        else
          { updates := [markInFlight, DbUpdate.setBotExcutedTime activityId (-1)]
            posted := true
            errorRaised := some e }

end Engine

/-! ## Concrete inputs used to instantiate the theorems -/

/-- The base configuration of the copy-strategy test suite:
PERCENTAGE, 10 %, max 100, min 1. -/
def baseTestConfig : CopyStrategyConfig :=
  { strategy := .PERCENTAGE, copySize := 10, maxOrderSizeUSD := 100,
    minOrderSizeUSD := 1 }

/-- The three-tier multiplier table of the test suite. -/
def testTiers : List TieredMultiplier :=
  [⟨0, some 50, 2⟩, ⟨50, some 200, 1⟩, ⟨200, none, 1 / 2⟩]

/-- An attempt-outcome sequence that times out on every attempt. -/
def timeoutOutcomes : Nat → Except FetchData.AttemptFailure Unit :=
  fun _ => .error (.axiosErr (some "ETIMEDOUT") none "timeout of 5000ms exceeded")

/-- The failure behind `timeoutOutcomes`. -/
def timeoutFailure : Nat → FetchData.AttemptFailure :=
  fun _ => .axiosErr (some "ETIMEDOUT") none "timeout of 5000ms exceeded"

/-- An attempt-outcome sequence that answers HTTP 404 on every attempt. -/
def notFoundOutcomes : Nat → Except FetchData.AttemptFailure Unit :=
  fun _ => .error (.axiosErr none (some 404) "Not Found")

/-- An attempt-outcome sequence that answers HTTP 500 on every attempt. -/
def serverErrorOutcomes : Nat → Except FetchData.AttemptFailure Unit :=
  fun _ => .error (.axiosErr none (some 500) "Internal Server Error")

/-- The failure behind `serverErrorOutcomes`. -/
def serverErrorFailure : Nat → FetchData.AttemptFailure :=
  fun _ => .axiosErr none (some 500) "Internal Server Error"

/-- A sample trade for the aggregator theorems. -/
def sampleTrade1 : Aggregator.TradeWithUser :=
  ⟨"trade1", "0x123", "cond1", "asset1", .BUY, 100, 1⟩

/-- A second sample trade with the same aggregation key. -/
def sampleTrade2 : Aggregator.TradeWithUser :=
  ⟨"trade2", "0x123", "cond1", "asset1", .BUY, 200, 2⟩

/-- A small breaker configuration: threshold 1, recovery timeout 10 ms,
monitoring period 100 ms. -/
def smallBreakerConfig : Breaker.Config := ⟨1, 10, 100⟩

/-! ## Theorems -/

/-- Claim C5: in `executeTrade`, when the validator returns
`isValid = false`, the engine issues the IN_FLIGHT marker write followed
by `updateOne(\x7b _id \x7d, \x7b $set: \x7b botExcutedTime: -1 \x7d \x7d)`
(the SKIPPED sentinel), posts no order, and no error propagates to the
caller. -/
theorem executeTrade_invalid_marks_skipped (activityId : String) (now : Nat)
    (validation : Engine.ValidationResult) (post : Engine.PostResult)
    (h : validation.isValid = false) :
    Engine.executeTrade activityId now true validation post =
      { updates := [DbUpdate.setBotExcutedTime activityId (now : Int),
                    DbUpdate.setBotExcutedTime activityId (-1)]
        posted := false
        errorRaised := none } := by
  simp [Engine.executeTrade, h]

/-- Witness for C5: the validation-failure scenario of the integration
test (`reason = "Insufficient balance"`), evaluated concretely. -/
theorem executeTrade_invalid_marks_skipped_witness :
    Engine.executeTrade "trade1" 1700 true
        ⟨false, some "Insufficient balance"⟩ .posted =
      { updates := [DbUpdate.setBotExcutedTime "trade1" (1700 : Int),
                    DbUpdate.setBotExcutedTime "trade1" (-1)]
        posted := false
        errorRaised := none } :=
  executeTrade_invalid_marks_skipped "trade1" 1700
    ⟨false, some "Insufficient balance"⟩ .posted rfl

/-- Claim C8 (counterexample): the claim says `getRecoveryStrategy`
returns retry for NETWORK errors, but for a NETWORK error constructed
with `isRetryable = false` the code returns skip. -/
theorem getRecoveryStrategy_network_counterexample :
    ErrorHandler.getRecoveryStrategy (NetworkError "connection lost" false) =
      ErrorHandler.RecoveryStrategy.skip ∧
    ErrorHandler.getRecoveryStrategy (NetworkError "connection lost" false) ≠
      ErrorHandler.RecoveryStrategy.retry := by
  constructor <;> decide

/-- Claim C8 (amended): `getRecoveryStrategy` returns shutdown for any
critical-severity error (in particular INSUFFICIENT_FUNDS and
CONFIGURATION defaults); skip for any non-retryable non-critical error;
and for retryable non-critical errors: retry for NETWORK/API,
circuit-break for DATABASE, otherwise skip. -/
theorem getRecoveryStrategy_spec (e : BaseError) :
    (e.severity = Severity.critical →
      ErrorHandler.getRecoveryStrategy e = .shutdown) ∧
    (e.isRetryable = false → e.severity ≠ Severity.critical →
      ErrorHandler.getRecoveryStrategy e = .skip) ∧
    (e.isRetryable = true → e.severity ≠ Severity.critical →
      (e.kind = ErrorKind.network ∨ e.kind = ErrorKind.api) →
      ErrorHandler.getRecoveryStrategy e = .retry) ∧
    (e.isRetryable = true → e.severity ≠ Severity.critical →
      e.kind = ErrorKind.database →
      ErrorHandler.getRecoveryStrategy e = .circuitBreak) ∧
    (e.isRetryable = true → e.severity ≠ Severity.critical →
      e.kind ≠ ErrorKind.network → e.kind ≠ ErrorKind.api →
      e.kind ≠ ErrorKind.database →
      ErrorHandler.getRecoveryStrategy e = .skip) ∧
    (∀ msg, ErrorHandler.getRecoveryStrategy (InsufficientFundsError msg) =
      .shutdown) ∧
    (∀ msg, ErrorHandler.getRecoveryStrategy (ConfigurationError msg) =
      .shutdown) := by
  obtain ⟨k, msg, c, r, s⟩ := e
  cases r <;> cases s <;> cases k <;>
    simp [ErrorHandler.getRecoveryStrategy, ErrorHandler.shouldRecover,
      InsufficientFundsError, ConfigurationError]

/-- Witness for the amended C8: concrete default-constructed errors hit
retry, circuit-break and shutdown respectively. -/
theorem getRecoveryStrategy_spec_witness :
    ErrorHandler.getRecoveryStrategy (NetworkError "request timeout") =
      ErrorHandler.RecoveryStrategy.retry ∧
    ErrorHandler.getRecoveryStrategy (DatabaseError "mongo down") =
      ErrorHandler.RecoveryStrategy.circuitBreak ∧
    ErrorHandler.getRecoveryStrategy (ConfigurationError "missing RPC_URL") =
      ErrorHandler.RecoveryStrategy.shutdown := by
  refine ⟨?_, ?_, ?_⟩
  · exact (getRecoveryStrategy_spec (NetworkError "request timeout")).2.2.1
      rfl (by decide) (Or.inl rfl)
  · exact (getRecoveryStrategy_spec (DatabaseError "mongo down")).2.2.2.1
      rfl (by decide) rfl
  · exact (getRecoveryStrategy_spec (ConfigurationError "missing RPC_URL")).1 rfl

/-- Claim C9: `getMyBalance` runs under the breaker named
"polygon-balance" with threshold 3 and recovery timeout 30 s; on success
it returns the `balanceOf` result divided by `10^6`; any `Error` thrown
by the RPC read is re-raised as an API error whose message carries the
redacted address; and while that breaker is open the call fast-fails
with a CIRCUIT_BREAKER error. -/
theorem getMyBalance_spec (address : String) (s : Breaker.BreakerState)
    (now : Nat) (baseUnits : Nat) (v : ErrorHandler.Thrown)
    (hclosed : s.state = Breaker.BState.closed)
    (hv : Balance.thrownIsError v = true) :
    Balance.balanceBreakerName = "polygon-balance" ∧
    Balance.balanceBreakerConfig.failureThreshold = 3 ∧
    Balance.balanceBreakerConfig.recoveryTimeout = 30000 ∧
    (Balance.getMyBalance address s now (.ok baseUnits)).2 =
      .ok ((baseUnits : ℚ) / 1000000) ∧
    (Balance.getMyBalance address s now (.err v)).2 =
      .error (ApiError
        ("Failed to get balance for " ++ Balance.redactAddress address ++
          ": " ++ Balance.thrownMessage v) true) ∧
    (∀ s' : Breaker.BreakerState, ∀ rpc : Balance.RpcOutcome,
      s'.state = Breaker.BState.opened →
      now - s'.lastFailureTime ≤ 30000 →
      ∃ e, (Balance.getMyBalance address s' now rpc).2 = .error e ∧
        e.kind = ErrorKind.circuitBreaker) := by
  refine ⟨rfl, rfl, rfl, ?_, ?_, ?_⟩
  · simp [Balance.getMyBalance, Breaker.executeExcept, Breaker.executeStep,
      hclosed, Balance.balanceOp]
  · simp [Balance.getMyBalance, Breaker.executeExcept, Breaker.executeStep,
      hclosed, Balance.balanceOp, hv]
  · intro s' rpc hopen hrec
    refine ⟨CircuitBreakerError
      ("Circuit breaker " ++ Balance.balanceBreakerName ++
        " is OPEN - service unavailable"), ?_, rfl⟩
    have hnot : ¬ (Balance.balanceBreakerConfig.recoveryTimeout <
        now - s'.lastFailureTime) := by
      simpa [Balance.balanceBreakerConfig] using Nat.not_lt.mpr hrec
    simp [Balance.getMyBalance, Breaker.executeExcept, Breaker.executeStep,
      hopen, hnot]

/-- Witness for C9: a concrete address and breaker states. -/
theorem getMyBalance_spec_witness :
    Balance.balanceBreakerName = "polygon-balance" ∧
    Balance.balanceBreakerConfig.failureThreshold = 3 ∧
    Balance.balanceBreakerConfig.recoveryTimeout = 30000 ∧
    (Balance.getMyBalance "0xAbCdEf012345aBcD" ⟨0, 0, .closed⟩ 1000
        (.ok 25000000)).2 = .ok ((25000000 : ℚ) / 1000000) ∧
    (Balance.getMyBalance "0xAbCdEf012345aBcD" ⟨0, 0, .closed⟩ 1000
        (.err (.jsError "could not detect network"))).2 =
      .error (ApiError
        ("Failed to get balance for " ++
          Balance.redactAddress "0xAbCdEf012345aBcD" ++
          ": " ++ Balance.thrownMessage (.jsError "could not detect network"))
        true) ∧
    (∀ s' : Breaker.BreakerState, ∀ rpc : Balance.RpcOutcome,
      s'.state = Breaker.BState.opened →
      1000 - s'.lastFailureTime ≤ 30000 →
      ∃ e, (Balance.getMyBalance "0xAbCdEf012345aBcD" s' 1000 rpc).2 =
        .error e ∧ e.kind = ErrorKind.circuitBreaker) :=
  getMyBalance_spec "0xAbCdEf012345aBcD" ⟨0, 0, .closed⟩ 1000 25000000
    (.jsError "could not detect network") rfl rfl

/-- Invariant of reachable breaker states: away from `closed`, the
failure count has reached the threshold. -/
theorem breaker_reach_inv (cfg : Breaker.Config) (name : String) :
    ∀ s : Breaker.BreakerState, Breaker.Reachable cfg name s →
      s.state ≠ Breaker.BState.closed → cfg.failureThreshold ≤ s.failures := by
  intro s h
  induction h with
  | init => intro hst; exact absurd rfl hst
  | forced h ih => intro hst; exact absurd rfl hst
  | @step s' now r h ih =>
    intro hst
    obtain ⟨sf, sl, sst⟩ := s'
    cases sst with
    | closed =>
      cases r with
      | succeeds =>
        simp only [Breaker.executeStep, Breaker.onSuccess,
          Breaker.resetState] at hst ⊢
        split_ifs at hst ⊢ <;> simp_all
      | fails =>
        simp only [Breaker.executeStep, Breaker.onFailure] at hst ⊢
        split_ifs at hst ⊢ <;> simp_all
    | opened =>
      by_cases hrec : cfg.recoveryTimeout < now - sl
      · cases r with
        | succeeds =>
          simp only [Breaker.executeStep, Breaker.onSuccess,
            Breaker.resetState, hrec] at hst ⊢
          split_ifs at hst ⊢ <;> simp_all
        | fails =>
          have hpre := ih (by simp)
          simp only [Breaker.executeStep, Breaker.onFailure, hrec] at hst ⊢
          split_ifs at hst ⊢ <;> simp_all
          omega
      · have hpre := ih (by simp)
        cases r <;>
          simp_all [Breaker.executeStep, hrec]
    | halfOpen =>
      have hpre := ih (by simp)
      cases r with
      | succeeds =>
        simp only [Breaker.executeStep, Breaker.onSuccess,
          Breaker.resetState] at hst ⊢
        split_ifs at hst ⊢ <;> simp_all
      | fails =>
        simp only [Breaker.executeStep, Breaker.onFailure] at hst ⊢
        split_ifs at hst ⊢ <;> simp_all
        omega

/-- Claim C6: in every reachable breaker state, the breaker is open only
with at least `failureThreshold` failures since the last reset; while
open within the recovery timeout, `execute` fast-fails with a
CIRCUIT_BREAKER error without invoking the operation and leaves the
state unchanged; once the timeout has elapsed it allows a single
half-open probe whose success closes the breaker with counters reset
and whose failure reopens it. -/
theorem circuitBreaker_spec (cfg : Breaker.Config) (name : String) :
    (∀ s : Breaker.BreakerState, Breaker.Reachable cfg name s →
      s.state = Breaker.BState.opened → cfg.failureThreshold ≤ s.failures) ∧
    (∀ (s : Breaker.BreakerState) (now : Nat) (r : Breaker.OpResult),
      Breaker.Reachable cfg name s → s.state = Breaker.BState.opened →
      now - s.lastFailureTime ≤ cfg.recoveryTimeout →
      (Breaker.executeStep cfg name s now r).1 = s ∧
      ∃ e, (Breaker.executeStep cfg name s now r).2 =
          Breaker.ExecOutcome.fastFail e ∧
        e.kind = ErrorKind.circuitBreaker) ∧
    (∀ (s : Breaker.BreakerState) (now : Nat),
      Breaker.Reachable cfg name s → s.state = Breaker.BState.opened →
      cfg.recoveryTimeout < now - s.lastFailureTime →
      (Breaker.executeStep cfg name s now .succeeds).1 =
        (⟨0, 0, .closed⟩ : Breaker.BreakerState) ∧
      (Breaker.executeStep cfg name s now .succeeds).2 =
        Breaker.ExecOutcome.invokedOk ∧
      (Breaker.executeStep cfg name s now .fails).1.state =
        Breaker.BState.opened ∧
      (Breaker.executeStep cfg name s now .fails).2 =
        Breaker.ExecOutcome.invokedFailed) := by
  refine ⟨?_, ?_, ?_⟩
  · intro s h hst
    exact breaker_reach_inv cfg name s h (by simp [hst])
  · intro s now r h hst hrec
    have hnot : ¬ (cfg.recoveryTimeout < now - s.lastFailureTime) :=
      Nat.not_lt.mpr hrec
    cases r <;>
      refine ⟨by simp [Breaker.executeStep, hst, hnot],
        ⟨CircuitBreakerError
          ("Circuit breaker " ++ name ++ " is OPEN - service unavailable"),
          by simp [Breaker.executeStep, hst, hnot], rfl⟩⟩
  · intro s now h hst hrec
    obtain ⟨sf, sl, sst⟩ := s
    simp only [Breaker.BreakerState.state] at hst
    subst hst
    simp only [Breaker.BreakerState.lastFailureTime] at hrec
    refine ⟨?_, ?_, ?_, ?_⟩ <;>
      simp [Breaker.executeStep, Breaker.onSuccess, Breaker.onFailure,
        Breaker.resetState, hrec]

/-- Witness for C6: a breaker with threshold 1 that opened after one
failure at time 5: at time 10 it fast-fails; at time 100 a successful
probe resets it and a failing probe reopens it. -/
theorem circuitBreaker_spec_witness :
    1 ≤ ((⟨1, 5, .opened⟩ : Breaker.BreakerState)).failures ∧
    ((Breaker.executeStep smallBreakerConfig "api" ⟨1, 5, .opened⟩ 10
        .succeeds).1 = (⟨1, 5, .opened⟩ : Breaker.BreakerState) ∧
      ∃ e, (Breaker.executeStep smallBreakerConfig "api" ⟨1, 5, .opened⟩ 10
          .succeeds).2 = Breaker.ExecOutcome.fastFail e ∧
        e.kind = ErrorKind.circuitBreaker) ∧
    ((Breaker.executeStep smallBreakerConfig "api" ⟨1, 5, .opened⟩ 100
        .succeeds).1 = (⟨0, 0, .closed⟩ : Breaker.BreakerState) ∧
      (Breaker.executeStep smallBreakerConfig "api" ⟨1, 5, .opened⟩ 100
        .succeeds).2 = Breaker.ExecOutcome.invokedOk ∧
      (Breaker.executeStep smallBreakerConfig "api" ⟨1, 5, .opened⟩ 100
        .fails).1.state = Breaker.BState.opened ∧
      (Breaker.executeStep smallBreakerConfig "api" ⟨1, 5, .opened⟩ 100
        .fails).2 = Breaker.ExecOutcome.invokedFailed) := by
  have h0 : Breaker.Reachable smallBreakerConfig "api" ⟨0, 0, .closed⟩ :=
    Breaker.Reachable.init
  have h1 : Breaker.Reachable smallBreakerConfig "api" ⟨1, 5, .opened⟩ := by
    have h := Breaker.Reachable.step 5 Breaker.OpResult.fails h0
    simpa [Breaker.executeStep, Breaker.onFailure, smallBreakerConfig] using h
  refine ⟨?_, ?_, ?_⟩
  · exact (circuitBreaker_spec smallBreakerConfig "api").1 _ h1 rfl
  · exact (circuitBreaker_spec smallBreakerConfig "api").2.1
      ⟨1, 5, .opened⟩ 10 .succeeds h1 rfl (by decide)
  · exact (circuitBreaker_spec smallBreakerConfig "api").2.2
      ⟨1, 5, .opened⟩ 100 h1 rfl (by decide)

/-- If every attempt fails and every failure before the last attempt is
retryable, the retry loop runs through its whole budget and throws the
classification of the final failure, making one HTTP call per remaining
attempt. -/
theorem fetchDataGo_all_fail {α : Type} (outcomes : Nat → Except FetchData.AttemptFailure α)
    (retries : Nat) (f : Nat → FetchData.AttemptFailure)
    (hout : ∀ k, outcomes k = .error (f k))
    (hr : ∀ k, k < retries → FetchData.isRetryableError (f k) = true) :
    ∀ (fuel attempt : Nat), 1 ≤ attempt → attempt ≤ retries →
      attempt + fuel = retries + 1 →
      FetchData.fetchDataGo outcomes retries attempt fuel =
        (some (.error (FetchData.terminalError retries (f retries))), fuel) := by
  intro fuel
  induction fuel with
  | zero => intro attempt h1 h2 h3; omega
  | succ fuel ih =>
    intro attempt h1 h2 h3
    by_cases hlast : attempt = retries
    · subst hlast
      have hf : fuel = 0 := by omega
      subst hf
      simp [FetchData.fetchDataGo, hout attempt]
    · have hlt : attempt < retries := lt_of_le_of_ne h2 hlast
      have hble : (attempt == retries) = false := by simp [hlast]
      simp only [FetchData.fetchDataGo, hout attempt, hr attempt hlt, hble,
        Bool.not_false, Bool.and_true, if_true]
      rw [ih (attempt + 1) (by omega) (by omega) (by omega)]

/-- Claim C7: for every url, `fetchData` on a first-attempt HTTP 4xx
failure makes exactly one HTTP call and raises a non-retryable API
error; on persistent transport-class failures it makes exactly
`NETWORK_RETRY_LIMIT` calls and raises a NETWORK error; on persistent
HTTP ≥ 500 failures it makes exactly `NETWORK_RETRY_LIMIT` calls and
raises a retryable API error. -/
theorem fetchData_error_classification {α : Type}
    (retries : Nat) (h1 : 1 ≤ retries) :
    (∀ (outcomes : Nat → Except FetchData.AttemptFailure α)
        (code : Option String) (st : Nat) (msg : String),
      outcomes 1 = .error (.axiosErr code (some st) msg) →
      (∀ c, code = some c → FetchData.networkCodes.contains c = false) →
      400 ≤ st → st < 500 →
      ∃ e, FetchData.fetchData retries outcomes = (some (.error e), 1) ∧
        e.kind = ErrorKind.api ∧ e.isRetryable = false) ∧
    (∀ (outcomes : Nat → Except FetchData.AttemptFailure α)
        (f : Nat → FetchData.AttemptFailure),
      (∀ k, outcomes k = .error (f k)) →
      (∀ k, FetchData.isNetworkError (f k) = true) →
      ∃ e, FetchData.fetchData retries outcomes = (some (.error e), retries) ∧
        e.kind = ErrorKind.network) ∧
    (∀ (outcomes : Nat → Except FetchData.AttemptFailure α)
        (st : Nat → Nat) (msg : Nat → String),
      (∀ k, outcomes k = .error (.axiosErr none (some (st k)) (msg k))) →
      (∀ k, 500 ≤ st k) →
      ∃ e, FetchData.fetchData retries outcomes = (some (.error e), retries) ∧
        e.kind = ErrorKind.api ∧ e.isRetryable = true) := by
  refine ⟨?_, ?_, ?_⟩
  · intro outcomes code st msg hout hcode h4 h5
    obtain ⟨n, rfl⟩ : ∃ n, retries = n + 1 := ⟨retries - 1, by omega⟩
    have hnet : FetchData.isNetworkError (.axiosErr code (some st) msg) = false := by
      cases code with
      | none => simp [FetchData.isNetworkError]
      | some c =>
        have hc := hcode c rfl
        simp at hc
        simp [FetchData.isNetworkError, hc]
    have hretry : FetchData.isRetryableError (.axiosErr code (some st) msg) = false := by
      simp [FetchData.isRetryableError, hnet]
      omega
    refine ⟨FetchData.terminalError (n + 1) (.axiosErr code (some st) msg),
      ?_, ?_, ?_⟩
    · simp [FetchData.fetchData, FetchData.fetchDataGo, hout, hretry]
    · simp [FetchData.terminalError, hnet, ApiError]
    · simp [FetchData.terminalError, hnet, ApiError]
      omega
  · intro outcomes f hout hnet
    have hr : ∀ k, k < retries → FetchData.isRetryableError (f k) = true := by
      intro k _
      have hk := hnet k
      cases hfk : f k with
      | axiosErr code status m =>
        rw [hfk] at hk
        simp [FetchData.isRetryableError, hk]
      | nonAxios v =>
        rw [hfk] at hk
        simp [FetchData.isNetworkError] at hk
    have hmain := fetchDataGo_all_fail outcomes retries f hout hr retries 1
      le_rfl h1 (by omega)
    cases hfr : f retries with
    | nonAxios v =>
      exfalso
      have hk := hnet retries
      rw [hfr] at hk
      simp [FetchData.isNetworkError] at hk
    | axiosErr code status m =>
      refine ⟨FetchData.terminalError retries (f retries), ?_, ?_⟩
      · rw [FetchData.fetchData, hmain]
      · have hk := hnet retries
        rw [hfr] at hk
        simp [FetchData.terminalError, hfr, hk, NetworkError]
  · intro outcomes st msg hout h500
    have hnetf : ∀ k,
        FetchData.isNetworkError (.axiosErr none (some (st k)) (msg k)) = false := by
      intro k
      simp [FetchData.isNetworkError]
    have hr : ∀ k, k < retries →
        FetchData.isRetryableError
          (FetchData.AttemptFailure.axiosErr none (some (st k)) (msg k)) = true := by
      intro k _
      simp [FetchData.isRetryableError, h500 k]
    have hmain := fetchDataGo_all_fail outcomes retries
      (fun k => .axiosErr none (some (st k)) (msg k)) hout hr retries 1
      le_rfl h1 (by omega)
    refine ⟨FetchData.terminalError retries
      (.axiosErr none (some (st retries)) (msg retries)), ?_, ?_, ?_⟩
    · rw [FetchData.fetchData, hmain]
    · simp [FetchData.terminalError, hnetf retries, ApiError]
    · simp [FetchData.terminalError, hnetf retries, ApiError, h500 retries]

/-- Witness for C7: a 404 fails after one call with a non-retryable API
error; persistent timeouts exhaust 3 calls with a NETWORK error;
persistent HTTP 500 exhausts 3 calls with a retryable API error. -/
theorem fetchData_error_classification_witness :
    (∃ e, FetchData.fetchData 3 notFoundOutcomes = (some (.error e), 1) ∧
      e.kind = ErrorKind.api ∧ e.isRetryable = false) ∧
    (∃ e, FetchData.fetchData 3 timeoutOutcomes = (some (.error e), 3) ∧
      e.kind = ErrorKind.network) ∧
    (∃ e, FetchData.fetchData 3 serverErrorOutcomes = (some (.error e), 3) ∧
      e.kind = ErrorKind.api ∧ e.isRetryable = true) := by
  refine ⟨?_, ?_, ?_⟩
  · exact (fetchData_error_classification 3 (by decide)).1 notFoundOutcomes
      none 404 "Not Found" rfl (fun c hc => by simp at hc)
      (by decide) (by decide)
  · have hnetk : ∀ k : Nat, FetchData.isNetworkError (timeoutFailure k) = true :=
      fun _ => rfl
    exact (fetchData_error_classification 3 (by decide)).2.1 timeoutOutcomes
      timeoutFailure (fun _ => rfl) hnetk
  · have h500 : ∀ k : Nat, 500 ≤ (fun _ : Nat => 500) k :=
      fun _ => Nat.le_refl 500
    exact (fetchData_error_classification 3 (by decide)).2.2 serverErrorOutcomes
      (fun _ => 500) (fun _ => "Internal Server Error") (fun _ => rfl) h500

/-- Claim C10: the NETWORK error `fetchData` raises after exhausting its
attempt budget on transport-class failures carries
`isRetryable = false`, so `getRecoveryStrategy` on it yields skip, not
retry. -/
theorem fetchData_network_error_skipped {α : Type}
    (retries : Nat) (outcomes : Nat → Except FetchData.AttemptFailure α)
    (f : Nat → FetchData.AttemptFailure)
    (h1 : 1 ≤ retries) (hout : ∀ k, outcomes k = .error (f k))
    (hnet : ∀ k, FetchData.isNetworkError (f k) = true) :
    ∃ e, (FetchData.fetchData retries outcomes).1 = some (.error e) ∧
      e.kind = ErrorKind.network ∧ e.isRetryable = false ∧
      ErrorHandler.getRecoveryStrategy e = ErrorHandler.RecoveryStrategy.skip := by
  have hr : ∀ k, k < retries → FetchData.isRetryableError (f k) = true := by
    intro k _
    have hk := hnet k
    cases hfk : f k with
    | axiosErr code status m =>
      rw [hfk] at hk
      simp [FetchData.isRetryableError, hk]
    | nonAxios v =>
      rw [hfk] at hk
      simp [FetchData.isNetworkError] at hk
  have hmain := fetchDataGo_all_fail outcomes retries f hout hr retries 1
    le_rfl h1 (by omega)
  cases hfr : f retries with
  | nonAxios v =>
    exfalso
    have hk := hnet retries
    rw [hfr] at hk
    simp [FetchData.isNetworkError] at hk
  | axiosErr code status m =>
    refine ⟨FetchData.terminalError retries (f retries), ?_, ?_, ?_, ?_⟩
    · rw [FetchData.fetchData, hmain]
    · have hk := hnet retries
      rw [hfr] at hk
      simp [FetchData.terminalError, hfr, hk, NetworkError]
    · have hk := hnet retries
      rw [hfr] at hk
      simp [FetchData.terminalError, hfr, hk, NetworkError]
    · have hk := hnet retries
      rw [hfr] at hk
      simp [FetchData.terminalError, hfr, hk, NetworkError,
        ErrorHandler.getRecoveryStrategy, ErrorHandler.shouldRecover]

/-- Witness for C10: three timeouts with a retry limit of 3. -/
theorem fetchData_network_error_skipped_witness :
    1 ≤ 3 ∧
    ∃ e, (FetchData.fetchData 3 timeoutOutcomes).1 = some (.error e) ∧
      e.kind = ErrorKind.network ∧ e.isRetryable = false ∧
      ErrorHandler.getRecoveryStrategy e = ErrorHandler.RecoveryStrategy.skip :=
  ⟨by decide, fetchData_network_error_skipped 3 timeoutOutcomes timeoutFailure
    (by decide) (fun _ => rfl) (fun _ => rfl)⟩

/-- `List.find?` returns the element at the first index where the
predicate holds. -/
theorem find?_first {α : Type} (p : α → Bool) (l : List α) :
    ∀ (i : Nat) (hi : i < l.length), p (l.get ⟨i, hi⟩) = true →
      (∀ j, (hj : j < l.length) → j < i → p (l.get ⟨j, hj⟩) = false) →
      l.find? p = some (l.get ⟨i, hi⟩) := by
  induction l with
  | nil => intro i hi; simp at hi
  | cons a l ih =>
    intro i hi hp hb
    cases i with
    | zero =>
      simpa using List.find?_cons_of_pos l (by simpa using hp)
    | succ i =>
      have ha : p a = false := hb 0 (by simp) (Nat.succ_pos i)
      have hi' : i < l.length := Nat.lt_of_succ_lt_succ (by simpa using hi)
      have hp' : p (l.get ⟨i, hi'⟩) = true := by simpa using hp
      have hb' : ∀ j, (hj : j < l.length) → j < i → p (l.get ⟨j, hj⟩) = false := by
        intro j hj hji
        have := hb (j + 1) (by simpa using Nat.succ_lt_succ hj)
          (Nat.succ_lt_succ hji)
        simpa using this
      have hfind := ih i hi' hp' hb'
      rw [List.find?_cons_of_neg _ (by simp [ha]), hfind]
      simp

/-- Claim C2: `getTradeMultiplier` uses the first tier whose `[min, max)`
contains the trader order size when `tieredMultipliers` is set and
non-empty, else `tradeMultiplier` when present, else 1.0; and
`calculateOrderSize` multiplies the strategy base amount by exactly this
value before any cap is applied. -/
theorem getTradeMultiplier_spec (config : CopyStrategyConfig) (x : ℚ) :
    (∀ tiers, config.tieredMultipliers = some tiers →
      ∀ (i : Nat) (hi : i < tiers.length),
        tierMatches (tiers.get ⟨i, hi⟩) x = true →
        (∀ j, (hj : j < tiers.length) → j < i →
          tierMatches (tiers.get ⟨j, hj⟩) x = false) →
        getTradeMultiplier config x = (tiers.get ⟨i, hi⟩).multiplier) ∧
    ((config.tieredMultipliers = none ∨ config.tieredMultipliers = some []) →
      ∀ m, config.tradeMultiplier = some m → getTradeMultiplier config x = m) ∧
    ((config.tieredMultipliers = none ∨ config.tieredMultipliers = some []) →
      config.tradeMultiplier = none → getTradeMultiplier config x = 1) ∧
    (∀ availableBalance currentPositionSize : ℚ,
      (calculateOrderSize config x availableBalance
          currentPositionSize).baseAmount =
        strategyBaseAmount config x * getTradeMultiplier config x) := by
  refine ⟨?_, ?_, ?_, ?_⟩
  · intro tiers htiers i hi hp hb
    have hfind := find?_first (fun tier => tierMatches tier x) tiers i hi hp hb
    cases tiers with
    | nil => simp at hi
    | cons t ts => simp [getTradeMultiplier, htiers, hfind]
  · intro hempty m hm
    rcases hempty with h | h <;> simp [getTradeMultiplier, h, hm]
  · intro hempty hm
    rcases hempty with h | h <;> simp [getTradeMultiplier, h, hm]
  · intro b q
    simp [calculateOrderSize]

/-- Witness for C2: the test suite's tier table at trader size 100 picks
the second tier; the legacy multiplier and the default are returned when
no tiers are set; the base amount is the strategy amount times the
multiplier. -/
theorem getTradeMultiplier_spec_witness :
    getTradeMultiplier
      { baseTestConfig with tieredMultipliers := some testTiers } 100 = 1 ∧
    getTradeMultiplier
      { baseTestConfig with tradeMultiplier := some 3 } 100 = 3 ∧
    getTradeMultiplier baseTestConfig 100 = 1 ∧
    (calculateOrderSize
        { baseTestConfig with tieredMultipliers := some testTiers }
        100 50 0).baseAmount =
      strategyBaseAmount
          { baseTestConfig with tieredMultipliers := some testTiers } 100 *
        getTradeMultiplier
          { baseTestConfig with tieredMultipliers := some testTiers } 100 := by
  refine ⟨?_, ?_, ?_, ?_⟩
  · have h := (getTradeMultiplier_spec
        { baseTestConfig with tieredMultipliers := some testTiers } 100).1
      testTiers rfl 1 (by decide)
      (by decide : tierMatches ⟨(50 : ℚ), some 200, 1⟩ 100 = true)
      (by
        intro j hj hj1
        have hj0 : j = 0 := by omega
        subst hj0
        exact (by decide : tierMatches ⟨(0 : ℚ), some 50, 2⟩ 100 = false))
    exact h
  · exact (getTradeMultiplier_spec
      { baseTestConfig with tradeMultiplier := some 3 } 100).2.1
      (Or.inl rfl) 3 rfl
  · exact (getTradeMultiplier_spec baseTestConfig 100).2.2.1 (Or.inl rfl) rfl
  · exact (getTradeMultiplier_spec
      { baseTestConfig with tieredMultipliers := some testTiers } 100).2.2.2
      50 0

/-- The trade multiplier is non-negative for well-typed configurations
(non-negative tier multipliers and legacy multiplier). -/
theorem getTradeMultiplier_nonneg (config : CopyStrategyConfig) (x : ℚ)
    (htm : ∀ m ∈ config.tradeMultiplier, 0 ≤ m)
    (htiers : ∀ ts ∈ config.tieredMultipliers, ∀ tier ∈ ts,
      0 ≤ tier.multiplier) :
    0 ≤ getTradeMultiplier config x := by
  rcases hts : config.tieredMultipliers with _ | ts
  · simp only [getTradeMultiplier, hts]
    rcases htm2 : config.tradeMultiplier with _ | m
    · exact zero_le_one
    · exact htm m (Option.mem_def.mpr htm2)
  · rcases ts with _ | ⟨t, rest⟩
    · simp only [getTradeMultiplier, hts]
      rcases htm2 : config.tradeMultiplier with _ | m
      · exact zero_le_one
      · exact htm m (Option.mem_def.mpr htm2)
    · simp only [getTradeMultiplier, hts]
      rcases hfind : (t :: rest).find? (fun tier => tierMatches tier x)
          with _ | tier
      · simp
      · simp only
        exact htiers (t :: rest) (Option.mem_def.mpr hts) tier
          (List.mem_of_find?_eq_some hfind)

/-- The per-strategy base amount is non-negative for well-typed
inputs. -/
theorem strategyBaseAmount_nonneg (config : CopyStrategyConfig) (x : ℚ)
    (hx : 0 ≤ x) (hcopy : 0 ≤ config.copySize)
    (hminP : ∀ q ∈ config.adaptiveMinPercent, 0 ≤ q) :
    0 ≤ strategyBaseAmount config x := by
  have hperc : 0 ≤ x * config.copySize / 100 :=
    div_nonneg (mul_nonneg hx hcopy) (by norm_num)
  rcases hst : config.strategy with _ | _ | _ <;>
    simp only [strategyBaseAmount, hst]
  · exact hperc
  · exact hcopy
  · rcases hmin : config.adaptiveMinPercent with _ | minP <;>
      rcases hmaxp : config.adaptiveMaxPercent with _ | maxP <;>
      rcases hth : config.adaptiveThreshold with _ | t <;>
      simp only
    any_goals exact hperc
    have hminP' : (0 : ℚ) ≤ minP := hminP minP (Option.mem_def.mpr hmin)
    split_ifs
    · have hclamp : 0 ≤ clampQ (maxP - x / t * (maxP - minP)) minP maxP :=
        le_trans hminP' (le_max_left _ _)
      exact div_nonneg (mul_nonneg hx hclamp) (by norm_num)
    · have hrw : t * (minP * (t / x)) = minP * (t * t / x) := by ring
      rw [hrw]
      exact div_nonneg
        (mul_nonneg hminP' (div_nonneg (mul_self_nonneg t) hx)) (by norm_num)

/-- Claim C1: for every well-typed input, the sized intent has
`0 ≤ finalAmount`, `finalAmount ≤ maxOrderSizeUSD` (the cap applied
after the multiplier), `belowMinimum = true → finalAmount = 0`, and no
positive amount below `minOrderSizeUSD` survives
(`belowMinimum = false → minOrderSizeUSD ≤ finalAmount`). -/
theorem calculateOrderSize_invariants (config : CopyStrategyConfig)
    (traderOrderSize availableBalance currentPositionSize : ℚ)
    (htrader : 0 ≤ traderOrderSize) (hbal : 0 ≤ availableBalance)
    (hcopy : 0 ≤ config.copySize) (hmax : 0 < config.maxOrderSizeUSD)
    (hminP : ∀ q ∈ config.adaptiveMinPercent, 0 ≤ q)
    (htm : ∀ m ∈ config.tradeMultiplier, 0 ≤ m)
    (htiers : ∀ ts ∈ config.tieredMultipliers, ∀ tier ∈ ts,
      0 ≤ tier.multiplier) :
    0 ≤ (calculateOrderSize config traderOrderSize availableBalance
        currentPositionSize).finalAmount ∧
    (calculateOrderSize config traderOrderSize availableBalance
        currentPositionSize).finalAmount ≤ config.maxOrderSizeUSD ∧
    ((calculateOrderSize config traderOrderSize availableBalance
        currentPositionSize).belowMinimum = true →
      (calculateOrderSize config traderOrderSize availableBalance
        currentPositionSize).finalAmount = 0) ∧
    ((calculateOrderSize config traderOrderSize availableBalance
        currentPositionSize).belowMinimum = false →
      config.minOrderSizeUSD ≤
        (calculateOrderSize config traderOrderSize availableBalance
          currentPositionSize).finalAmount) := by
  have hm := getTradeMultiplier_nonneg config traderOrderSize htm htiers
  have hsb := strategyBaseAmount_nonneg config traderOrderSize htrader hcopy hminP
  have hhair : availableBalance * (99 / 100) ≤ availableBalance :=
    mul_le_of_le_one_right hbal (by norm_num)
  have hhair0 : 0 ≤ availableBalance * (99 / 100) :=
    mul_nonneg hbal (by norm_num)
  rcases hposopt : config.maxPositionSizeUSD with _ | cap
  · simp only [calculateOrderSize, hposopt, decide_eq_true_eq,
      decide_eq_false_iff_not]
    generalize hBdef : strategyBaseAmount config traderOrderSize *
      getTradeMultiplier config traderOrderSize = B
    have hbase : 0 ≤ B := hBdef ▸ mul_nonneg hsb hm
    split_ifs <;> refine ⟨?_, ?_, ?_, ?_⟩ <;> intros <;> linarith
  · simp only [calculateOrderSize, hposopt, decide_eq_true_eq,
      decide_eq_false_iff_not]
    generalize hBdef : strategyBaseAmount config traderOrderSize *
      getTradeMultiplier config traderOrderSize = B
    have hbase : 0 ≤ B := hBdef ▸ mul_nonneg hsb hm
    split_ifs <;> refine ⟨?_, ?_, ?_, ?_⟩ <;> intros <;>
      first
        | linarith
        | exact le_max_left 0 _
        | exact max_le hmax.le (by linarith)
        | linarith [le_max_left (0 : ℚ) (cap - currentPositionSize)]
        | linarith [le_max_left (0 : ℚ) (cap - currentPositionSize),
            max_le hmax.le
              (show cap - currentPositionSize ≤ config.maxOrderSizeUSD by
                linarith)]

/-- Witness for C1: the base scenario of the test suite (10 % of 100
with balance 50). -/
theorem calculateOrderSize_invariants_witness :
    0 ≤ (calculateOrderSize baseTestConfig 100 50 0).finalAmount ∧
    (calculateOrderSize baseTestConfig 100 50 0).finalAmount ≤
      baseTestConfig.maxOrderSizeUSD ∧
    ((calculateOrderSize baseTestConfig 100 50 0).belowMinimum = true →
      (calculateOrderSize baseTestConfig 100 50 0).finalAmount = 0) ∧
    ((calculateOrderSize baseTestConfig 100 50 0).belowMinimum = false →
      baseTestConfig.minOrderSizeUSD ≤
        (calculateOrderSize baseTestConfig 100 50 0).finalAmount) :=
  calculateOrderSize_invariants baseTestConfig 100 50 0 (by decide) (by decide)
    (by decide) (by decide) (by simp [baseTestConfig])
    (by simp [baseTestConfig]) (by simp [baseTestConfig])

/-- Appending an event on the right does not change the
first-occurrence time of a key that already occurs. -/
theorem firstTimeFor_append_of_some
    {evs : List (Nat × Aggregator.TradeWithUser)} {k : Aggregator.AggKey}
    {w : Nat} (ev : Nat × Aggregator.TradeWithUser)
    (h : Aggregator.firstTimeFor evs k = some w) :
    Aggregator.firstTimeFor (evs ++ [ev]) k = some w := by
  unfold Aggregator.firstTimeFor at h ⊢
  rcases hf : evs.find? (fun e => Aggregator.tradeKey e.2 == k) with _ | e
  · rw [hf] at h
    simp at h
  · rw [hf] at h
    rw [List.find?_append, hf]
    simpa using h

/-- One `addToAggregationBuffer` call preserves buffer
well-formedness. -/
theorem bufferWF_add (events : List (Nat × Aggregator.TradeWithUser))
    (buf : List Aggregator.PendingAggregation) (now : Nat)
    (trade : Aggregator.TradeWithUser) (hpos : 0 < trade.usdcSize)
    (h : Aggregator.BufferWF events buf) :
    Aggregator.BufferWF (events ++ [(now, trade)])
      (Aggregator.addToAggregationBuffer now trade buf) := by
  obtain ⟨hbuckets, hkeys⟩ := h
  by_cases hex : (buf.any fun b => b.key == Aggregator.tradeKey trade) = true
  · rw [Aggregator.addToAggregationBuffer, if_pos hex]
    constructor
    · intro b' hb'
      obtain ⟨b, hb, hfb⟩ := List.mem_map.mp hb'
      obtain ⟨⟨ht, hav, hne, hkey⟩, hfirst⟩ := hbuckets b hb
      by_cases hbk : (b.key == Aggregator.tradeKey trade) = true
      · rw [if_pos hbk] at hfb
        subst hfb
        refine ⟨⟨?_, ?_, ?_, ?_⟩, ?_⟩
        · simp [Aggregator.appendTrade, Aggregator.sizeSum, ht]
        · simp only [Aggregator.appendTrade, Aggregator.sizeSum,
            List.map_append, List.sum_append, List.map_cons, List.map_nil,
            List.sum_cons, List.sum_nil]
          rw [ht]
          simp [Aggregator.sizeSum]
        · simp [Aggregator.appendTrade]
        · intro t htm
          simp only [Aggregator.appendTrade, List.mem_append,
            List.mem_singleton] at htm
          rcases htm with htm | rfl
          · exact hkey t htm
          · exact (beq_iff_eq.mp hbk).symm
        · exact firstTimeFor_append_of_some _ hfirst
      · rw [if_neg hbk] at hfb
        subst hfb
        exact ⟨⟨ht, hav, hne, hkey⟩, firstTimeFor_append_of_some _ hfirst⟩
    · intro k
      constructor
      · rintro ⟨b', hb', rfl⟩
        obtain ⟨b, hb, hfb⟩ := List.mem_map.mp hb'
        have hkeyeq : b'.key = b.key := by
          by_cases hbk : (b.key == Aggregator.tradeKey trade) = true
          · rw [if_pos hbk] at hfb
            subst hfb
            rfl
          · rw [if_neg hbk] at hfb
            subst hfb
            rfl
        obtain ⟨e, he, hek⟩ := (hkeys b.key).mp ⟨b, hb, rfl⟩
        refine ⟨e, List.mem_append_left _ he, ?_⟩
        rw [hkeyeq]
        exact hek
      · rintro ⟨e, he, hek⟩
        rcases List.mem_append.mp he with he | he
        · obtain ⟨b, hb, hbk⟩ := (hkeys k).mpr ⟨e, he, hek⟩
          refine ⟨_, List.mem_map_of_mem _ hb, ?_⟩
          by_cases hbk2 : (b.key == Aggregator.tradeKey trade) = true
          · simp only [if_pos hbk2, Aggregator.appendTrade]
            exact hbk
          · simp only [if_neg hbk2]
            exact hbk
        · simp only [List.mem_singleton] at he
          subst he
          obtain ⟨b, hb, hbk⟩ := List.any_eq_true.mp hex
          refine ⟨_, List.mem_map_of_mem _ hb, ?_⟩
          simp only [if_pos hbk, Aggregator.appendTrade]
          exact (beq_iff_eq.mp hbk).trans hek
  · rw [Aggregator.addToAggregationBuffer, if_neg hex]
    have hnone : events.find?
        (fun e => Aggregator.tradeKey e.2 == Aggregator.tradeKey trade) =
          none := by
      refine List.find?_eq_none.mpr ?_
      intro e he hcontra
      obtain ⟨b, hb, hbk⟩ :=
        (hkeys (Aggregator.tradeKey trade)).mpr ⟨e, he, beq_iff_eq.mp hcontra⟩
      have hany : (buf.any fun b => b.key == Aggregator.tradeKey trade) = true :=
        List.any_eq_true.mpr ⟨b, hb, beq_iff_eq.mpr hbk⟩
      exact absurd hany hex
    constructor
    · intro b' hb'
      rcases List.mem_append.mp hb' with hb | hb
      · obtain ⟨hwf, hfirst⟩ := hbuckets b' hb
        exact ⟨hwf, firstTimeFor_append_of_some _ hfirst⟩
      · simp only [List.mem_singleton] at hb
        subst hb
        refine ⟨⟨?_, ?_, ?_, ?_⟩, ?_⟩
        · simp [Aggregator.newBucket, Aggregator.sizeSum]
        · simp only [Aggregator.newBucket, Aggregator.sizeSum,
            Aggregator.weightedSum, List.map_cons, List.map_nil,
            List.sum_cons, List.sum_nil, add_zero]
          rw [mul_comm, mul_div_assoc, div_self (ne_of_gt hpos), mul_one]
        · simp [Aggregator.newBucket]
        · intro t htm
          simp only [Aggregator.newBucket, List.mem_singleton] at htm
          subst htm
          rfl
        · simp only [Aggregator.newBucket]
          unfold Aggregator.firstTimeFor
          rw [List.find?_append, hnone]
          simp
    · intro k
      constructor
      · rintro ⟨b', hb', rfl⟩
        rcases List.mem_append.mp hb' with hb | hb
        · obtain ⟨e, he, hek⟩ := (hkeys b'.key).mp ⟨b', hb, rfl⟩
          exact ⟨e, List.mem_append_left _ he, hek⟩
        · simp only [List.mem_singleton] at hb
          subst hb
          exact ⟨(now, trade), List.mem_append_right _ (by simp), rfl⟩
      · rintro ⟨e, he, hek⟩
        rcases List.mem_append.mp he with he | he
        · obtain ⟨b, hb, hbk⟩ := (hkeys k).mpr ⟨e, he, hek⟩
          exact ⟨b, List.mem_append_left _ hb, hbk⟩
        · simp only [List.mem_singleton] at he
          subst he
          exact ⟨Aggregator.newBucket now trade,
            List.mem_append_right _ (by simp), hek⟩

/-- The buffer built from any event sequence is well-formed. -/
theorem processAdds_wf (events : List (Nat × Aggregator.TradeWithUser))
    (hpos : ∀ e ∈ events, 0 < e.2.usdcSize) :
    Aggregator.BufferWF events (Aggregator.processAdds events) := by
  induction events using List.reverseRecOn with
  | nil =>
    exact ⟨by simp [Aggregator.processAdds], by simp [Aggregator.processAdds]⟩
  | append_singleton evs ev ih =>
    have hih := ih (fun e he => hpos e (List.mem_append_left _ he))
    have h := bufferWF_add evs (Aggregator.processAdds evs) ev.1 ev.2
      (hpos ev (List.mem_append_right _ (by simp))) hih
    simpa [Aggregator.processAdds, List.foldl_append] using h

/-- Claim C3: after any sequence of `addToAggregationBuffer` calls with
positive trade sizes, every live bucket has `totalUsdcSize` the sum of
its contributions, `averagePrice` the size-weighted average, a
non-empty contribution list all of whose trades carry the bucket's key
(so different keys are never merged), and `windowStart` equal to the
time of the first insert for that key. -/
theorem aggregation_bucket_invariants
    (events : List (Nat × Aggregator.TradeWithUser))
    (hpos : ∀ e ∈ events, 0 < e.2.usdcSize) :
    ∀ b ∈ Aggregator.processAdds events,
      b.totalUsdcSize = Aggregator.sizeSum b.trades ∧
      b.averagePrice =
        Aggregator.weightedSum b.trades / Aggregator.sizeSum b.trades ∧
      b.trades ≠ [] ∧
      (∀ t ∈ b.trades, Aggregator.tradeKey t = b.key) ∧
      Aggregator.firstTimeFor events b.key = some b.windowStart := by
  intro b hb
  obtain ⟨hbuckets, _⟩ := processAdds_wf events hpos
  obtain ⟨⟨h1, h2, h3, h4⟩, h5⟩ := hbuckets b hb
  exact ⟨h1, h2, h3, h4, h5⟩

/-- Witness for C3: the bucket created by inserting `sampleTrade1` at
time 1000 into the empty buffer. -/
theorem aggregation_bucket_invariants_witness :
    (Aggregator.newBucket 1000 sampleTrade1).totalUsdcSize =
      Aggregator.sizeSum (Aggregator.newBucket 1000 sampleTrade1).trades ∧
    (Aggregator.newBucket 1000 sampleTrade1).averagePrice =
      Aggregator.weightedSum (Aggregator.newBucket 1000 sampleTrade1).trades /
        Aggregator.sizeSum (Aggregator.newBucket 1000 sampleTrade1).trades ∧
    (Aggregator.newBucket 1000 sampleTrade1).trades ≠ [] ∧
    Aggregator.tradeKey sampleTrade1 =
      (Aggregator.newBucket 1000 sampleTrade1).key ∧
    Aggregator.firstTimeFor [(1000, sampleTrade1)]
        (Aggregator.newBucket 1000 sampleTrade1).key =
      some (Aggregator.newBucket 1000 sampleTrade1).windowStart := by
  have h := aggregation_bucket_invariants [(1000, sampleTrade1)]
    (by
      intro e he
      simp only [List.mem_singleton] at he
      subst he
      decide)
    (Aggregator.newBucket 1000 sampleTrade1)
    (by simp [Aggregator.processAdds, Aggregator.addToAggregationBuffer])
  exact ⟨h.1, h.2.1, h.2.2.1,
    h.2.2.2.1 sampleTrade1 (by simp [Aggregator.newBucket]), h.2.2.2.2⟩

/-- Claim C4: `getReadyAggregatedTrades` emits exactly the ready buckets
(window elapsed) whose total reaches `minOrderSizeUSD`, in buffer
order; it removes every ready bucket, keeping exactly the non-ready
ones; ready-but-undersized buckets are dropped without emitting after a
`\x7b bot: true \x7d` update for each contribution; and a call
immediately after a first insert (window not elapsed) returns the empty
list and leaves the bucket in place. -/
theorem getReadyAggregatedTrades_spec (window : Nat) (minOrder : ℚ)
    (now : Nat) (buf : List Aggregator.PendingAggregation) :
    (Aggregator.getReadyAggregatedTrades window minOrder now buf).1 =
      (buf.filter (fun b => Aggregator.isReady window now b &&
        !(decide (b.totalUsdcSize < minOrder)))).map Aggregator.toAggregated ∧
    (Aggregator.getReadyAggregatedTrades window minOrder now buf).2.1 =
      buf.filter (fun b => !(Aggregator.isReady window now b)) ∧
    (Aggregator.getReadyAggregatedTrades window minOrder now buf).2.2 =
      (buf.filter (fun b => Aggregator.isReady window now b &&
        decide (b.totalUsdcSize < minOrder))).flatMap
        (fun b => b.trades.map (fun t => DbUpdate.setBotSkipped t.id)) ∧
    (∀ (trade : Aggregator.TradeWithUser) (t : Nat), now - t < window →
      Aggregator.getReadyAggregatedTrades window minOrder now
          (Aggregator.addToAggregationBuffer t trade []) =
        ([], Aggregator.addToAggregationBuffer t trade [], [])) := by
  have hmain : ∀ bs : List Aggregator.PendingAggregation,
      (Aggregator.getReadyAggregatedTrades window minOrder now bs).1 =
        (bs.filter (fun b => Aggregator.isReady window now b &&
          !(decide (b.totalUsdcSize < minOrder)))).map Aggregator.toAggregated ∧
      (Aggregator.getReadyAggregatedTrades window minOrder now bs).2.1 =
        bs.filter (fun b => !(Aggregator.isReady window now b)) ∧
      (Aggregator.getReadyAggregatedTrades window minOrder now bs).2.2 =
        (bs.filter (fun b => Aggregator.isReady window now b &&
          decide (b.totalUsdcSize < minOrder))).flatMap
          (fun b => b.trades.map (fun t => DbUpdate.setBotSkipped t.id)) := by
    intro bs
    induction bs with
    | nil => simp [Aggregator.getReadyAggregatedTrades]
    | cons b rest ih =>
      obtain ⟨ih1, ih2, ih3⟩ := ih
      by_cases hr : Aggregator.isReady window now b = true
      · by_cases hsmall : b.totalUsdcSize < minOrder
        · simp [Aggregator.getReadyAggregatedTrades, hr, hsmall, ih1, ih2, ih3]
        · simp [Aggregator.getReadyAggregatedTrades, hr, hsmall, ih1, ih2, ih3]
      · simp only [Bool.not_eq_true] at hr
        simp [Aggregator.getReadyAggregatedTrades, hr, ih1, ih2, ih3]
  obtain ⟨h1, h2, h3⟩ := hmain buf
  refine ⟨h1, h2, h3, ?_⟩
  intro trade t ht
  have hnotready : ¬ (window ≤ now - t) := Nat.not_le.mpr ht
  simp [Aggregator.addToAggregationBuffer, Aggregator.newBucket,
    Aggregator.getReadyAggregatedTrades, Aggregator.isReady, hnotready]

/-- Witness for C4: one bucket created at time 0 is drained at time
65000 with a 60-second window, and a bucket created at 64000 is not. -/
theorem getReadyAggregatedTrades_spec_witness :
    (Aggregator.getReadyAggregatedTrades 60000 1 65000
        (Aggregator.addToAggregationBuffer 0 sampleTrade1 [])).1 =
      ((Aggregator.addToAggregationBuffer 0 sampleTrade1 []).filter
        (fun b => Aggregator.isReady 60000 65000 b &&
          !(decide (b.totalUsdcSize < 1)))).map Aggregator.toAggregated ∧
    (Aggregator.getReadyAggregatedTrades 60000 1 65000
        (Aggregator.addToAggregationBuffer 0 sampleTrade1 [])).2.1 =
      (Aggregator.addToAggregationBuffer 0 sampleTrade1 []).filter
        (fun b => !(Aggregator.isReady 60000 65000 b)) ∧
    (Aggregator.getReadyAggregatedTrades 60000 1 65000
        (Aggregator.addToAggregationBuffer 0 sampleTrade1 [])).2.2 =
      ((Aggregator.addToAggregationBuffer 0 sampleTrade1 []).filter
        (fun b => Aggregator.isReady 60000 65000 b &&
          decide (b.totalUsdcSize < 1))).flatMap
        (fun b => b.trades.map (fun t => DbUpdate.setBotSkipped t.id)) ∧
    Aggregator.getReadyAggregatedTrades 60000 1 65000
        (Aggregator.addToAggregationBuffer 64000 sampleTrade2 []) =
      ([], Aggregator.addToAggregationBuffer 64000 sampleTrade2 [], []) := by
  obtain ⟨h1, h2, h3, h4⟩ := getReadyAggregatedTrades_spec 60000 1 65000
    (Aggregator.addToAggregationBuffer 0 sampleTrade1 [])
  exact ⟨h1, h2, h3, h4 sampleTrade2 64000 (by decide)⟩

end CopyBot
